import Mathlib

/-!
Shallow embedding of the `terraform-provider-smtp` core
(`internal/provider/provider.go` and `internal/provider/resource_message.go`).

The message-composition routine writes each header chunk through an
`io.MultiWriter` feeding (a) a SHA-256 accumulator, which sees the raw chunk
bytes, and (b) a `net/textproto` DotWriter over a `bufio.Writer` over a
`bytes.Buffer`, which stores the dot-encoded framing of those bytes.  The
embedding tracks both byte streams explicitly, together with the DotWriter
line state, and indexes every fallible write so that a write failure at any
position can be injected (`failAt`).  The SHA-256 compression function itself
lives in the Go standard library, outside this repository, so the hash is a
parameter `hash : List Char → List Nat` producing the 32 digest bytes.
-/

namespace Smtp

/-- An `smtp.Auth` strategy value as constructed by `configureClient`:
either absent, `smtp.CRAMMD5Auth(username, secret)`, or
`smtp.PlainAuth(identity, username, password, host)`. -/
inductive Auth where
  | nil : Auth
  | cramMD5 (username secret : String) : Auth
  | plain (identity username password host : String) : Auth
  deriving DecidableEq

/-- The `client` struct of `provider.go`. -/
structure Client where
  auth : Auth
  host : String
  username : String
  «from» : String
  port : Int
  deriving DecidableEq

/-- One element of the `cram_md5_auth` TypeList block. -/
structure CramSettings where
  secret : String
  deriving DecidableEq

/-- One element of the `plain_auth` TypeList block. -/
structure PlainSettings where
  password : String
  identity : String
  deriving DecidableEq

/-- The resolved provider configuration handed to `configureClient`.
The two auth blocks are TypeLists with at most one element; `r.GetOk`
reports `ok` exactly when the list is non-empty (non-zero value). -/
structure ProviderConfig where
  host : String
  port : Int
  username : String
  «from» : String
  cram_md5_auth : List CramSettings
  plain_auth : List PlainSettings
  deriving DecidableEq

/-- `configureClient` from `provider.go`: builds the `client`; CRAM-MD5 branch
is tried first (`if ... ok`), then PLAIN (`else if ... ok`), else the
"no authentication method specified" error. -/
def configureClient (r : ProviderConfig) : Except String Client :=
  let base : Client :=
    { auth := Auth.nil, host := r.host, port := r.port,
      username := r.username, «from» := r.«from» }
  if r.cram_md5_auth.length > 0 then
    match r.cram_md5_auth with
    | [] => Except.ok base
    | s :: _ => Except.ok { base with auth := Auth.cramMD5 r.username s.secret }
  else if r.plain_auth.length > 0 then
    match r.plain_auth with
    | [] => Except.ok base
    | s :: _ =>
        Except.ok { base with auth := Auth.plain s.identity r.username s.password r.host }
  else
    Except.error "no authentication method specified"

/-- The fields of a message resource (`resourceMessage` schema): `to`/`cc`/`bcc`
are TypeSets whose `.List()` yields the element strings; `headers` is a
string map whose iteration order is unspecified, modelled as an association
list in some order. Unset optional strings read back as `""`. -/
structure Message where
  subject : String
  body : String
  «from» : String
  «to» : List String
  cc : List String
  bcc : List String
  headers : List (String × String)

/-- The effective From value of `resourceMessageCreate` lines 81-87:
start from `client.username`, overwrite with `client.from` when non-empty,
overwrite with the message `from` when non-empty. -/
def effectiveFrom (c : Client) (m : Message) : String :=
  let f0 := c.username
  let f1 := if c.«from» ≠ "" then c.«from» else f0
  if m.«from» ≠ "" then m.«from» else f1

/-- `strings.Join(l, ", ")`. -/
def joinComma : List String → String
  | [] => ""
  | [s] => s
  | s :: rest => s ++ ", " ++ joinComma rest

/-- Line state of the Go `net/textproto` dotWriter. -/
inductive WState where
  | wstateBegin : WState
  | wstateBeginLine : WState
  | wstateCR : WState
  | wstateData : WState
  deriving DecidableEq

/-- One step of `dotWriter.Write`: at line start a leading `.` is doubled,
`\n` becomes `\r\n`, a `\r\n` pair is passed through, and the state tracks
whether the output sits at a line boundary. -/
def dotWriteChar : WState → Char → List Char × WState
  | WState.wstateBegin, c =>
      if c = '.' then (['.', '.'], WState.wstateData)
      else if c = '\r' then (['\r'], WState.wstateCR)
      else if c = '\n' then (['\r', '\n'], WState.wstateBeginLine)
      else ([c], WState.wstateData)
  | WState.wstateBeginLine, c =>
      if c = '.' then (['.', '.'], WState.wstateData)
      else if c = '\r' then (['\r'], WState.wstateCR)
      else if c = '\n' then (['\r', '\n'], WState.wstateBeginLine)
      else ([c], WState.wstateData)
  | WState.wstateData, c =>
      if c = '\r' then (['\r'], WState.wstateCR)
      else if c = '\n' then (['\r', '\n'], WState.wstateBeginLine)
      else ([c], WState.wstateData)
  | WState.wstateCR, c =>
      if c = '\n' then (['\n'], WState.wstateBeginLine)
      else ([c], WState.wstateData)

/-- `dotWriter.Write` over a chunk of bytes. -/
def dotWrite : WState → List Char → List Char × WState
  | st, [] => ([], st)
  | st, c :: cs =>
      ((dotWriteChar st c).1 ++ (dotWrite (dotWriteChar st c).2 cs).1,
       (dotWrite (dotWriteChar st c).2 cs).2)

/-- The terminator `dotWriter.Close` appends, by final line state:
`"\r\n.\r\n"` mid-line, `"\n.\r\n"` after a bare CR, `".\r\n"` at a
line boundary. -/
def dotCloseTail : WState → List Char
  | WState.wstateCR => ['\n', '.', '\r', '\n']
  | WState.wstateBeginLine => ['.', '\r', '\n']
  | _ => ['\r', '\n', '.', '\r', '\n']

/-- Full dot-encoding of a byte sequence: write everything, then close. -/
def dotEncode (s : List Char) : List Char :=
  (dotWrite WState.wstateBegin s).1 ++ dotCloseTail (dotWrite WState.wstateBegin s).2

/-- State of the composition write pass: `raw` is the byte stream fed to the
SHA-256 accumulator, `buf` the `bytes.Buffer` contents (dot-encoded), `dstate`
the DotWriter line state, and `count` the index of the next write operation. -/
structure WriterState where
  raw : List Char
  buf : List Char
  dstate : WState
  count : Nat
  deriving DecidableEq

/-- The writer state before any write. -/
def initWriter : WriterState :=
  { raw := [], buf := [], dstate := WState.wstateBegin, count := 0 }

/-- One fallible write of a labelled chunk through the MultiWriter: when the
oracle `failAt` marks this write index it fails with the diag label of the
chunk;
otherwise the raw bytes go to the hash stream and the dot-encoded bytes to
the buffer. -/
def writeStep (failAt : Option Nat) (s : WriterState) (lc : String × String) :
    Except String WriterState :=
  if failAt = some s.count then Except.error lc.1
  else
    Except.ok
      { raw := s.raw ++ lc.2.data,
        buf := s.buf ++ (dotWrite s.dstate lc.2.data).1,
        dstate := (dotWrite s.dstate lc.2.data).2,
        count := s.count + 1 }

/-- The chunk written for one extra-header entry:
`fmt.Fprintln(writer, k, ": ", v)` separates operands with spaces, giving
`<k> :  <v>` followed by a newline. -/
def headerChunk (kv : String × String) : String :=
  kv.1 ++ " :  " ++ kv.2 ++ "\n"

/-- The sequence of writes of `resourceMessageCreate` lines 89-124, each with
its diag error label: From and Subject (with the `Fprintln` operand space after
the trailing space of `"From: "`), To and Cc only when non-empty, every extra
header, the blank separator line, and the body (`Fprint`, no newline). -/
def composeWrites (c : Client) (m : Message) : List (String × String) :=
  [("failed to write the From header", "From:  " ++ effectiveFrom c m ++ "\n"),
   ("failed to write the Subject header", "Subject:  " ++ m.subject ++ "\n")]
  ++ (if m.«to».length > 0 then
        [("failed to write the To header", "To:  " ++ joinComma m.«to» ++ "\n")]
      else [])
  ++ (if m.cc.length > 0 then
        [("failed to write the Cc header", "Cc:  " ++ joinComma m.cc ++ "\n")]
      else [])
  ++ m.headers.map (fun kv =>
        ("failed to write the " ++ kv.1 ++ " header", headerChunk kv))
  ++ [("failed to write the body separator", "\n"),
      ("failed to write the body", m.body)]

/-- `msgWriter.Close()`: flushes the terminator into the buffer; fallible
like the writes, with its own diag label. -/
def closeStep (failAt : Option Nat) (s : WriterState) : Except String WriterState :=
  if failAt = some s.count then Except.error "failed to close the message writer"
  else
    Except.ok
      { raw := s.raw,
        buf := s.buf ++ dotCloseTail s.dstate,
        dstate := s.dstate,
        count := s.count + 1 }

/-- Perform a list of writes in order; the first failure aborts with its
diag message. -/
def runWrites (failAt : Option Nat) :
    WriterState → List (String × String) → Except String WriterState
  | s, [] => Except.ok s
  | s, lc :: ws =>
      match writeStep failAt s lc with
      | Except.error e => Except.error e
      | Except.ok s1 => runWrites failAt s1 ws

/-- The whole composition phase of `resourceMessageCreate`: perform every
write in order, then close the DotWriter; the first failure aborts with
its diag message. -/
def runComposition (c : Client) (m : Message) (failAt : Option Nat) :
    Except String WriterState :=
  match runWrites failAt initWriter (composeWrites c m) with
  | Except.error e => Except.error e
  | Except.ok s => closeStep failAt s

/-- Insertion into the Go `map[string]struct\x7b\x7d` recipient set: a repeated
key leaves the set unchanged. -/
def insertRecipient (acc : List String) (r : String) : List String :=
  if r ∈ acc then acc else acc ++ [r]

/-- `uniqueRecipients` from `resource_message.go`: every address of every
input list is inserted into one set; the Go map iteration order is
unspecified, so the embedding fixes first-insertion order as the
representative enumeration of the set. -/
def uniqueRecipients (recipients : List (List String)) : List String :=
  recipients.foldl (fun acc l => l.foldl insertRecipient acc) []

/-- Decimal rendering of a natural number, as `%d` prints the (non-negative)
nanosecond timestamp. -/
def natDigits (n : Nat) : List Char :=
  if n < 10 then [Char.ofNat (48 + n)]
  else natDigits (n / 10) ++ [Char.ofNat (48 + n % 10)]
termination_by n
decreasing_by
  exact Nat.div_lt_self (by omega) (by omega)

/-- One lowercase hex digit, as `%x` prints it. -/
def hexDigitChar (d : Nat) : Char :=
  if d < 10 then Char.ofNat (48 + d) else Char.ofNat (87 + d)

/-- `%x` of a byte slice: two lowercase hex digits per byte, zero-padded. -/
def hexOfBytes : List Nat → List Char
  | [] => []
  | b :: bs => hexDigitChar (b / 16) :: hexDigitChar (b % 16) :: hexOfBytes bs

/-- `fmt.Sprintf("%d-%x", ts, digest)`: the resource identity string. -/
def formatId (ts : Nat) (digest : List Nat) : String :=
  String.mk (natDigits ts ++ '-' :: hexOfBytes digest)

/-- `true` exactly on strings matching `^\d+-[0-9a-f]\x7b64\x7d$`. -/
def isLowerHexChar (c : Char) : Bool :=
  (48 ≤ c.toNat && c.toNat ≤ 57) || (97 ≤ c.toNat && c.toNat ≤ 102)

/-- Anchored match of the identity pattern: a non-empty maximal digit run,
then `-`, then exactly 64 lowercase hex characters ending the string. -/
def matchesIdPattern (s : String) : Bool :=
  let l := s.data
  let ds := l.takeWhile Char.isDigit
  !ds.isEmpty &&
    match l.drop ds.length with
    | '-' :: hex => hex.length == 64 && hex.all isLowerHexChar
    | _ => false

/-- `fmt.Sprintf("%s:%d", client.host, client.port)`. -/
def hostPort (c : Client) : String :=
  c.host ++ ":" ++ toString c.port

/-- Outcome of `resourceMessageCreate`: either a diag error, or success with
the identity string stored by `d.SetId`. -/
inductive CreateResult where
  | error (msg : String) : CreateResult
  | success (id : String) : CreateResult
  deriving DecidableEq

/-- Observable trace of one create call: its result, and — when
`smtp.SendMail` was reached — the host:port, the resolved recipient list and
the buffer bytes handed to it. -/
structure CreateTrace where
  result : CreateResult
  sendAttempted : Option (String × List String × List Char)
  deriving DecidableEq

/-- `resourceMessageCreate`: compose (any write failure aborts before the
send), resolve `uniqueRecipients(to, cc, bcc)`, call `smtp.SendMail` (its
success is the oracle `sendOk`), and only on success set the id to
`<UnixNano>-<hex sha256>`. -/
def resourceMessageCreate (hash : List Char → List Nat) (now : Nat)
    (failAt : Option Nat) (sendOk : Bool) (c : Client) (m : Message) :
    CreateTrace :=
  match runComposition c m failAt with
  | Except.error e => { result := CreateResult.error e, sendAttempted := none }
  | Except.ok s =>
      let host := hostPort c
      let recipients := uniqueRecipients [m.«to», m.cc, m.bcc]
      if sendOk then
        { result := CreateResult.success (formatId now (hash s.raw)),
          sendAttempted := some (host, recipients, s.buf) }
      else
        { result := CreateResult.error ("Error sending message as " ++ c.username),
          sendAttempted := some (host, recipients, s.buf) }

/-- Concatenation of the raw chunk bytes of a write list. -/
def chunkChars : List (String × String) → List Char
  | [] => []
  | lc :: ws => lc.2.data ++ chunkChars ws

/-- Concatenation of a list of strings (as `String.join`). -/
def joinAll : List String → String
  | [] => ""
  | s :: l => s ++ joinAll l

theorem dotWrite_append (st : WState) (a b : List Char) :
    dotWrite st (a ++ b) =
      ((dotWrite st a).1 ++ (dotWrite (dotWrite st a).2 b).1,
       (dotWrite (dotWrite st a).2 b).2) := by
  induction a generalizing st with
  | nil => simp [dotWrite]
  | cons c cs ih => simp [dotWrite, ih]

theorem chunkChars_append (a b : List (String × String)) :
    chunkChars (a ++ b) = chunkChars a ++ chunkChars b := by
  induction a with
  | nil => simp [chunkChars]
  | cons lc a ih => simp [chunkChars, ih]

/-- With no injected failure, the write-pass fold is total and its result is
fully determined: raw bytes accumulate, the buffer holds their dot-encoding
continued from the current line state, and the write counter advances by one
per chunk. -/
theorem runWrites_none (ws : List (String × String)) (s : WriterState) :
    runWrites none s ws =
      Except.ok { raw := s.raw ++ chunkChars ws,
                  buf := s.buf ++ (dotWrite s.dstate (chunkChars ws)).1,
                  dstate := (dotWrite s.dstate (chunkChars ws)).2,
                  count := s.count + ws.length } := by
  induction ws generalizing s with
  | nil => cases s; simp [runWrites, chunkChars, dotWrite]
  | cons lc ws ih =>
      have hstep : writeStep none s lc = Except.ok
          { raw := s.raw ++ lc.2.data,
            buf := s.buf ++ (dotWrite s.dstate lc.2.data).1,
            dstate := (dotWrite s.dstate lc.2.data).2,
            count := s.count + 1 } := by
        simp [writeStep]
      simp only [runWrites, hstep, ih]
      simp [chunkChars, dotWrite_append, List.append_assoc]
      omega

/-- With no injected failure, composition succeeds; the hash stream holds the
concatenated chunks and the buffer their full dot-encoding. -/
theorem runComposition_none (c : Client) (m : Message) :
    runComposition c m none =
      Except.ok { raw := chunkChars (composeWrites c m),
                  buf := dotEncode (chunkChars (composeWrites c m)),
                  dstate := (dotWrite WState.wstateBegin (chunkChars (composeWrites c m))).2,
                  count := (composeWrites c m).length + 1 } := by
  unfold runComposition
  rw [runWrites_none]
  simp [initWriter, closeStep, dotEncode]

/-- An injected failure at a write index inside the write list aborts the
write pass with some diag error. -/
theorem runWrites_fail (i : Nat) (ws : List (String × String)) (s : WriterState)
    (hlo : s.count ≤ i) (hhi : i < s.count + ws.length) :
    ∃ e, runWrites (some i) s ws = Except.error e := by
  induction ws generalizing s with
  | nil => simp at hhi; omega
  | cons lc ws ih =>
      by_cases h : i = s.count
      · exact ⟨lc.1, by simp [runWrites, writeStep, h]⟩
      · have hstep : writeStep (some i) s lc = Except.ok
            { raw := s.raw ++ lc.2.data,
              buf := s.buf ++ (dotWrite s.dstate lc.2.data).1,
              dstate := (dotWrite s.dstate lc.2.data).2,
              count := s.count + 1 } := by
          simp [writeStep]
          omega
        obtain ⟨e, he⟩ := ih
          { raw := s.raw ++ lc.2.data,
            buf := s.buf ++ (dotWrite s.dstate lc.2.data).1,
            dstate := (dotWrite s.dstate lc.2.data).2,
            count := s.count + 1 }
          (by simp; omega) (by simp at hhi ⊢; omega)
        exact ⟨e, by simp only [runWrites, hstep]; exact he⟩

/-- An injected failure index past the end of the write list leaves the write
pass untouched; the final write counter is known. -/
theorem runWrites_skip (i : Nat) (ws : List (String × String)) (s : WriterState)
    (h : s.count + ws.length ≤ i) :
    ∃ s1, runWrites (some i) s ws = Except.ok s1 ∧ s1.count = s.count + ws.length := by
  induction ws generalizing s with
  | nil => exact ⟨s, by simp [runWrites], by simp⟩
  | cons lc ws ih =>
      have hstep : writeStep (some i) s lc = Except.ok
          { raw := s.raw ++ lc.2.data,
            buf := s.buf ++ (dotWrite s.dstate lc.2.data).1,
            dstate := (dotWrite s.dstate lc.2.data).2,
            count := s.count + 1 } := by
        simp [writeStep]
        simp at h
        omega
      obtain ⟨s1, hs1, hc⟩ := ih
        { raw := s.raw ++ lc.2.data,
          buf := s.buf ++ (dotWrite s.dstate lc.2.data).1,
          dstate := (dotWrite s.dstate lc.2.data).2,
          count := s.count + 1 }
        (by simp at h ⊢; omega)
      exact ⟨s1, by simp only [runWrites, hstep]; exact hs1, by simp at hc ⊢; omega⟩

theorem mem_insertRecipient (acc : List String) (r x : String) :
    x ∈ insertRecipient acc r ↔ x ∈ acc ∨ x = r := by
  unfold insertRecipient
  split <;> rename_i h <;> simp [List.mem_append]
  intro hx
  rw [hx]
  exact h

theorem nodup_insertRecipient (acc : List String) (r : String) (h : acc.Nodup) :
    (insertRecipient acc r).Nodup := by
  unfold insertRecipient
  split <;> rename_i hr
  · exact h
  · simpa [List.nodup_append] using ⟨h, hr⟩

theorem mem_foldl_insertRecipient (l acc : List String) (x : String) :
    x ∈ l.foldl insertRecipient acc ↔ x ∈ acc ∨ x ∈ l := by
  induction l generalizing acc with
  | nil => simp
  | cons a l ih =>
      rw [List.foldl_cons, ih, mem_insertRecipient]
      simp
      tauto

theorem nodup_foldl_insertRecipient (l acc : List String) (h : acc.Nodup) :
    (l.foldl insertRecipient acc).Nodup := by
  induction l generalizing acc with
  | nil => exact h
  | cons a l ih => exact ih _ (nodup_insertRecipient _ _ h)

theorem mem_uniqueRecipients_three (l1 l2 l3 : List String) (x : String) :
    x ∈ uniqueRecipients [l1, l2, l3] ↔ x ∈ l1 ∨ x ∈ l2 ∨ x ∈ l3 := by
  unfold uniqueRecipients
  simp only [List.foldl_cons, List.foldl_nil]
  rw [mem_foldl_insertRecipient, mem_foldl_insertRecipient, mem_foldl_insertRecipient]
  simp
  tauto

theorem natDigits_spec (n : Nat) :
    (natDigits n).all Char.isDigit = true ∧ natDigits n ≠ [] := by
  induction n using Nat.strong_induction_on with
  | _ n ih =>
    rw [natDigits]
    split <;> rename_i h
    · refine ⟨?_, by simp⟩
      simp only [List.all_cons, List.all_nil, Bool.and_true]
      interval_cases n <;> decide
    · have hd := ih (n / 10) (Nat.div_lt_self (by omega) (by omega))
      refine ⟨?_, by simp⟩
      simp only [List.all_append, List.all_cons, List.all_nil, Bool.and_true, hd.1,
        Bool.true_and]
      have : n % 10 < 10 := Nat.mod_lt _ (by omega)
      interval_cases h10 : n % 10 <;> simp [h10]

theorem hexOfBytes_length (bs : List Nat) : (hexOfBytes bs).length = 2 * bs.length := by
  induction bs with
  | nil => simp [hexOfBytes]
  | cons b bs ih => simp [hexOfBytes, ih]; omega

theorem isLowerHexChar_hexDigitChar (d : Nat) (h : d < 16) :
    isLowerHexChar (hexDigitChar d) = true := by
  interval_cases d <;> decide

theorem hexOfBytes_all (bs : List Nat) (h : ∀ b ∈ bs, b < 256) :
    (hexOfBytes bs).all isLowerHexChar = true := by
  induction bs with
  | nil => simp [hexOfBytes]
  | cons b bs ih =>
      have hb : b < 256 := h b (by simp)
      simp only [hexOfBytes, List.all_cons, Bool.and_eq_true]
      refine ⟨isLowerHexChar_hexDigitChar _ (by omega), isLowerHexChar_hexDigitChar _ (by omega),
        ih fun x hx => h x (by simp [hx])⟩

theorem takeWhile_digits_append (l1 l2 : List Char) (h : l1.all Char.isDigit = true) :
    (l1 ++ l2).takeWhile Char.isDigit = l1 ++ l2.takeWhile Char.isDigit := by
  induction l1 with
  | nil => simp
  | cons a l1 ih =>
      simp only [List.all_cons, Bool.and_eq_true] at h
      simp [List.takeWhile_cons, h.1, ih h.2]

/-- The rendered identity always matches `^\d+-[0-9a-f]\x7b64\x7d$` when the
digest has 32 bytes. -/
theorem formatId_matches (ts : Nat) (d : List Nat)
    (hlen : d.length = 32) (hlt : ∀ b ∈ d, b < 256) :
    matchesIdPattern (formatId ts d) = true := by
  obtain ⟨hall, hne⟩ := natDigits_spec ts
  unfold formatId matchesIdPattern
  simp only [String.data]
  rw [takeWhile_digits_append _ _ hall]
  have hdash : List.takeWhile Char.isDigit ('-' :: hexOfBytes d) = [] := by
    simp [List.takeWhile_cons]
  rw [hdash, List.append_nil, List.drop_left]
  simp [hexOfBytes_length, hlen, hexOfBytes_all d hlt, hne]

/-- Whatever the send outcome, a composition that ran with no write failure
hands `smtp.SendMail` the host:port, the resolved recipient set and the
dot-encoded buffer. -/
theorem sendAttempted_none_eq (hash : List Char → List Nat) (now : Nat)
    (sendOk : Bool) (c : Client) (m : Message) :
    (resourceMessageCreate hash now none sendOk c m).sendAttempted =
      some (hostPort c, uniqueRecipients [m.«to», m.cc, m.bcc],
        dotEncode (chunkChars (composeWrites c m))) := by
  unfold resourceMessageCreate
  rw [runComposition_none]
  cases sendOk <;> simp

/-- A sample client with a default From value. -/
def exClient : Client :=
  { auth := Auth.nil, host := "localhost", username := "C", «from» := "B", port := 587 }

/-- A sample client with no default From value. -/
def exClientNoFrom : Client :=
  { auth := Auth.nil, host := "localhost", username := "C", «from» := "", port := 587 }

/-- A sample message with a From override and all recipient kinds. -/
def exMsg : Message :=
  { subject := "Hello", body := "Boom", «from» := "A", «to» := ["a@x.com"],
    cc := ["b@x.com"], bcc := ["c@x.com"], headers := [("K", "v")] }

/-- A sample message with no From override. -/
def exMsgNoFrom : Message :=
  { subject := "Hello", body := "Boom", «from» := "", «to» := ["a@x.com"],
    cc := [], bcc := ["c@x.com"], headers := [] }

/-- A provider configuration with both auth blocks populated. -/
def bothSchemesConfig : ProviderConfig :=
  { host := "h", port := 587, username := "u", «from» := "",
    cram_md5_auth := [{ secret := "sec" }],
    plain_auth := [{ password := "pw", identity := "" }] }

/-- C1: the header/body composition of `resourceMessageCreate` never consults
`bcc` — replacing the bcc set changes nothing about composition — yet every
bcc address is a member of the resolved recipient list handed to the SMTP
transport. -/
theorem bcc_blind (c : Client) (m : Message) (bcc2 : List String) :
    (∀ failAt, runComposition c { m with bcc := bcc2 } failAt = runComposition c m failAt) ∧
    (∀ a ∈ m.bcc, a ∈ uniqueRecipients [m.«to», m.cc, m.bcc]) ∧
    (∀ hash now sendOk host rs data,
      (resourceMessageCreate hash now none sendOk c m).sendAttempted = some (host, rs, data) →
      ∀ a ∈ m.bcc, a ∈ rs) := by
  refine ⟨fun failAt => rfl, fun a ha => ?_, ?_⟩
  · rw [mem_uniqueRecipients_three]
    tauto
  · intro hash now sendOk host rs data hsend a ha
    rw [sendAttempted_none_eq] at hsend
    simp only [Option.some.injEq, Prod.mk.injEq] at hsend
    rw [← hsend.2.1, mem_uniqueRecipients_three]
    tauto

/-- C1 witness: concrete message with `bcc = ["c@x.com"]`. -/
theorem bcc_blind_witness :
    runComposition exClientNoFrom { exMsg with bcc := [] } none =
      runComposition exClientNoFrom exMsg none ∧
    "c@x.com" ∈ uniqueRecipients [exMsg.«to», exMsg.cc, exMsg.bcc] :=
  ⟨(bcc_blind exClientNoFrom exMsg []).1 none,
   (bcc_blind exClientNoFrom exMsg []).2.1 "c@x.com" (by decide)⟩

/-- C3 counterexample: with both authentication schemes present,
`configureClient` does not fail with "no authentication method specified" —
it succeeds and returns a client carrying the CRAM-MD5 strategy, refuting
the both-schemes half of the claim. -/
theorem configureClient_both_schemes_ok :
    configureClient bothSchemesConfig =
      Except.ok { auth := Auth.cramMD5 "u" "sec", host := "h", username := "u",
                  «from» := "", port := 587 } := rfl

/-- C3 (amended): when neither authentication scheme is present,
`configureClient` fails with the ConfigurationError
"no authentication method specified" and returns no client. -/
theorem configureClient_no_auth (r : ProviderConfig)
    (h1 : r.cram_md5_auth = []) (h2 : r.plain_auth = []) :
    configureClient r = Except.error "no authentication method specified" := by
  simp [configureClient, h1, h2]

/-- C3 witness: concrete configuration with no auth scheme. -/
theorem configureClient_no_auth_witness :
    configureClient { host := "h", port := 587, username := "u", «from» := "",
                      cram_md5_auth := [], plain_auth := [] } =
      Except.error "no authentication method specified" :=
  configureClient_no_auth _ rfl rfl

/-- C4: the effective sender of the From header is the non-empty message
from override first, else the non-empty account default-from, else the
account username; and the From chunk, framed `From:  <value>`, is the first
write of the composition. -/
theorem effectiveFrom_precedence (c : Client) (m : Message) :
    (m.«from» ≠ "" → effectiveFrom c m = m.«from») ∧
    (m.«from» = "" → c.«from» ≠ "" → effectiveFrom c m = c.«from») ∧
    (m.«from» = "" → c.«from» = "" → effectiveFrom c m = c.username) ∧
    (composeWrites c m).head? =
      some ("failed to write the From header", "From:  " ++ effectiveFrom c m ++ "\n") := by
  refine ⟨fun h => ?_, fun h1 h2 => ?_, fun h1 h2 => ?_, rfl⟩
  · simp [effectiveFrom, h]
  · simp [effectiveFrom, h1, h2]
  · simp [effectiveFrom, h1, h2]

/-- C4 witness: override "A", default "B", username "C" resolve to "A"; empty
override resolves to "B"; both empty resolve to "C". -/
theorem effectiveFrom_precedence_witness :
    effectiveFrom exClient exMsg = "A" ∧
    effectiveFrom exClient exMsgNoFrom = "B" ∧
    effectiveFrom exClientNoFrom exMsgNoFrom = "C" :=
  ⟨(effectiveFrom_precedence exClient exMsg).1 (by decide),
   (effectiveFrom_precedence exClient exMsgNoFrom).2.1 rfl (by decide),
   (effectiveFrom_precedence exClientNoFrom exMsgNoFrom).2.2.1 rfl rfl⟩

/-- C5: an address is in `uniqueRecipients (to, cc, bcc)` iff it occurs in
one of the three lists (exact string match), each address occurs exactly once
(no duplicates), and the resulting set is unchanged under reordering of the
input lists. -/
theorem uniqueRecipients_spec (tos ccs bccs : List String) :
    (∀ x, x ∈ uniqueRecipients [tos, ccs, bccs] ↔ (x ∈ tos ∨ x ∈ ccs ∨ x ∈ bccs)) ∧
    (uniqueRecipients [tos, ccs, bccs]).Nodup ∧
    (∀ tos2 ccs2 bccs2, List.Perm tos tos2 → List.Perm ccs ccs2 → List.Perm bccs bccs2 →
      ∀ x, x ∈ uniqueRecipients [tos2, ccs2, bccs2] ↔ x ∈ uniqueRecipients [tos, ccs, bccs]) := by
  refine ⟨fun x => mem_uniqueRecipients_three tos ccs bccs x, ?_, ?_⟩
  · unfold uniqueRecipients
    simp only [List.foldl_cons, List.foldl_nil]
    exact nodup_foldl_insertRecipient _ _
      (nodup_foldl_insertRecipient _ _ (nodup_foldl_insertRecipient _ _ List.nodup_nil))
  · intro tos2 ccs2 bccs2 h1 h2 h3 x
    rw [mem_uniqueRecipients_three, mem_uniqueRecipients_three,
      h1.mem_iff, h2.mem_iff, h3.mem_iff]

/-- C5 witness: duplicate-heavy concrete inputs and a permutation of them. -/
theorem uniqueRecipients_spec_witness :
    ("b" ∈ uniqueRecipients [["a", "b"], ["b"], ["c"]] ↔
      ("b" ∈ ["a", "b"] ∨ "b" ∈ (["b"] : List String) ∨ "b" ∈ (["c"] : List String))) ∧
    (uniqueRecipients [["a", "b"], ["b"], ["c"]]).Nodup ∧
    ("c" ∈ uniqueRecipients [["b", "a"], ["b"], ["c"]] ↔
      "c" ∈ uniqueRecipients [["a", "b"], ["b"], ["c"]]) :=
  ⟨(uniqueRecipients_spec ["a", "b"] ["b"] ["c"]).1 "b",
   (uniqueRecipients_spec ["a", "b"] ["b"] ["c"]).2.1,
   (uniqueRecipients_spec ["a", "b"] ["b"] ["c"]).2.2 ["b", "a"] ["b"] ["c"]
     (by decide) (by decide) (by decide) "c"⟩

/-- C10: when the CRAM-MD5 block is present (in particular when both schemes
are populated), `configureClient` succeeds with the CRAM-MD5 strategy built
from the account username and the block secret, and the plain_auth block is
never consulted: replacing it by any list leaves the result unchanged. -/
theorem cram_precedence (r : ProviderConfig) (s : CramSettings)
    (rest : List CramSettings) (h : r.cram_md5_auth = s :: rest) :
    configureClient r =
      Except.ok { auth := Auth.cramMD5 r.username s.secret, host := r.host,
                  username := r.username, «from» := r.«from», port := r.port } ∧
    ∀ p, configureClient { r with plain_auth := p } = configureClient r := by
  constructor
  · simp [configureClient, h]
  · intro p
    simp [configureClient, h]

/-- C10 witness: concrete configuration with both schemes populated. -/
theorem cram_precedence_witness :
    configureClient bothSchemesConfig =
      Except.ok { auth := Auth.cramMD5 "u" "sec", host := "h", username := "u",
                  «from» := "", port := 587 } ∧
    configureClient { bothSchemesConfig with plain_auth := [] } =
      configureClient bothSchemesConfig :=
  ⟨(cram_precedence bothSchemesConfig { secret := "sec" } [] rfl).1,
   (cram_precedence bothSchemesConfig { secret := "sec" } [] rfl).2 []⟩

theorem chunkChars_headers_map (l : List (String × String)) :
    chunkChars (l.map (fun kv =>
        ("failed to write the " ++ kv.1 ++ " header", headerChunk kv))) =
      (joinAll (l.map headerChunk)).data := by
  induction l with
  | nil => rfl
  | cons kv l ih => simp [chunkChars, joinAll, ih, String.data_append]

/-- C6: the composed document is, in order: the `From:  <value>` line (double
space from the fixed framing), the Subject line, a To line exactly when `to`
is non-empty, a Cc line exactly when `cc` is non-empty, the extra headers,
one blank separator line, and the body verbatim. -/
theorem composition_order (c : Client) (m : Message) :
    ∃ s, runComposition c m none = Except.ok s ∧
      String.mk s.raw =
        "From:  " ++ effectiveFrom c m ++ "\n" ++
        ("Subject:  " ++ m.subject ++ "\n") ++
        (if m.«to».length > 0 then "To:  " ++ joinComma m.«to» ++ "\n" else "") ++
        (if m.cc.length > 0 then "Cc:  " ++ joinComma m.cc ++ "\n" else "") ++
        joinAll (m.headers.map headerChunk) ++
        "\n" ++ m.body := by
  refine ⟨_, runComposition_none c m, ?_⟩
  rw [String.ext_iff]
  show chunkChars (composeWrites c m) = _
  unfold composeWrites
  rw [chunkChars_append, chunkChars_append, chunkChars_append, chunkChars_append,
    chunkChars_headers_map]
  by_cases hto : m.«to».length > 0 <;> by_cases hcc : m.cc.length > 0 <;>
    simp [hto, hcc, chunkChars, String.data_append, List.append_assoc]

/-- `true` iff the bytes fed to the fingerprint accumulator equal the framed
bytes buffered for the transport. -/
def hashMatchesSent (r : Except String WriterState) : Bool :=
  match r with
  | Except.ok s => s.raw == s.buf
  | Except.error _ => true

/-- C2 counterexample: for a concrete message the hashed bytes differ from
the buffered bytes handed to `smtp.SendMail` — the DotWriter between the two
streams translates LF to CRLF and appends the `.`-terminator. -/
theorem hash_vs_sent_counterexample :
    hashMatchesSent (runComposition exClientNoFrom exMsgNoFrom none) = false := by
  decide

/-- C2 (amended): the fingerprint stream and the transport buffer both come
from the one write pass, but they are not byte-identical: the buffer handed
to the transport is exactly the dot-encoded framing (LF to CRLF, leading-dot
doubling, terminating dot-line) of the hashed bytes. -/
theorem fingerprint_vs_buffer (c : Client) (m : Message) :
    ∃ s, runComposition c m none = Except.ok s ∧ s.buf = dotEncode s.raw ∧
      ∀ hash now sendOk,
        (resourceMessageCreate hash now none sendOk c m).sendAttempted =
          some (hostPort c, uniqueRecipients [m.«to», m.cc, m.bcc], s.buf) :=
  ⟨_, runComposition_none c m, rfl,
   fun hash now sendOk => sendAttempted_none_eq hash now sendOk c m⟩

/-- C7: a success result implies the send succeeded, the identity matches
`^\d+-[0-9a-f]\x7b64\x7d$` and is `<timestamp>-<hex digest of the hashed
bytes>`; on any composition or delivery failure the result is an error and no
identity is produced. -/
theorem identity_only_after_success (hash : List Char → List Nat) (now : Nat)
    (failAt : Option Nat) (sendOk : Bool) (c : Client) (m : Message)
    (hdig : ∀ bs, (hash bs).length = 32 ∧ ∀ b ∈ hash bs, b < 256) :
    (∀ i, (resourceMessageCreate hash now failAt sendOk c m).result = CreateResult.success i →
      sendOk = true ∧ matchesIdPattern i = true ∧
      ∃ s, runComposition c m failAt = Except.ok s ∧ i = formatId now (hash s.raw)) ∧
    ((sendOk = false ∨ ∃ e, runComposition c m failAt = Except.error e) →
      ∃ msg, (resourceMessageCreate hash now failAt sendOk c m).result = CreateResult.error msg) := by
  constructor
  · intro i hi
    unfold resourceMessageCreate at hi
    cases hcomp : runComposition c m failAt with
    | error e => rw [hcomp] at hi; simp at hi
    | ok s =>
        rw [hcomp] at hi
        cases sendOk with
        | false => simp at hi
        | true =>
            simp at hi
            refine ⟨rfl, ?_, s, rfl, hi.symm⟩
            rw [← hi]
            exact formatId_matches now (hash s.raw) (hdig s.raw).1 (hdig s.raw).2
  · intro hfail
    unfold resourceMessageCreate
    cases hcomp : runComposition c m failAt with
    | error e => exact ⟨e, by simp⟩
    | ok s =>
        rcases hfail with hs | ⟨e, he⟩
        · subst hs
          exact ⟨"Error sending message as " ++ c.username, by simp⟩
        · rw [hcomp] at he
          exact absurd he (by simp)

/-- C7 witness: a constant 32-byte digest at a concrete successful send. -/
theorem identity_only_after_success_witness :
    matchesIdPattern (formatId 1700000000 (List.replicate 32 0)) = true := by
  have hdig : ∀ bs : List Char,
      ((fun _ : List Char => List.replicate 32 0) bs).length = 32 ∧
        ∀ b ∈ (fun _ : List Char => List.replicate 32 0) bs, b < 256 := by
    intro bs
    refine ⟨by simp, ?_⟩
    intro b hb
    have := List.eq_of_mem_replicate hb
    omega
  have h := (identity_only_after_success (fun _ => List.replicate 32 0) 1700000000 none true
      exClientNoFrom exMsgNoFrom hdig).1
  have hres : (resourceMessageCreate (fun _ => List.replicate 32 0) 1700000000 none true
      exClientNoFrom exMsgNoFrom).result =
      CreateResult.success (formatId 1700000000 (List.replicate 32 0)) := by
    unfold resourceMessageCreate
    rw [runComposition_none]
    rfl
  exact (h (formatId 1700000000 (List.replicate 32 0)) hres).2.1

/-- A minimal message with one extra header. -/
def hdrMsg : Message :=
  { subject := "s", body := "", «from» := "", «to» := [], cc := [], bcc := [],
    headers := [("K", "v")] }

/-- Prefix test on char lists. -/
def listPre : List Char → List Char → Bool
  | [], _ => true
  | _ :: _, [] => false
  | a :: as, b :: bs => a == b && listPre as bs

/-- `true` iff `needle` occurs contiguously anywhere in `hay`. -/
def containsSeq (needle hay : List Char) : Bool :=
  (List.range (hay.length + 1)).any (fun i => listPre needle (hay.drop i))

/-- `true` iff the composed document contains the byte sequence `K: v`. -/
def hasPlainColonHeader (r : Except String WriterState) : Bool :=
  match r with
  | Except.ok s => containsSeq ("K: v").data s.raw
  | Except.error _ => true

/-- C8 counterexample: with extra header ("K", "v") the composed document
nowhere contains `K: v` — in particular no header line of the form
`<key>: <value>`; the emitted line is `K :  v`. -/
theorem header_framing_counterexample :
    hasPlainColonHeader (runComposition exClientNoFrom hdrMsg none) = false := by
  decide

theorem chunkChars_of_mem (ws : List (String × String)) (lc : String × String)
    (h : lc ∈ ws) : ∃ pre post, chunkChars ws = pre ++ lc.2.data ++ post := by
  obtain ⟨l1, l2, hl⟩ := List.append_of_mem h
  subst hl
  rw [chunkChars_append]
  exact ⟨chunkChars l1, chunkChars l2, by simp [chunkChars, List.append_assoc]⟩

/-- C8 (amended): for every extra-header entry (k, v), the composed document
contains the segment `<k> :  <v>` followed by a newline — `Fprintln` puts a
space between the key and `": "` and another after it — not `<k>: <v>`. -/
theorem header_line_form (c : Client) (m : Message) (k v : String)
    (h : (k, v) ∈ m.headers) :
    ∃ s pre post, runComposition c m none = Except.ok s ∧
      s.raw = pre ++ (k ++ " :  " ++ v ++ "\n").data ++ post := by
  have hmem : ("failed to write the " ++ k ++ " header", headerChunk (k, v)) ∈
      composeWrites c m := by
    unfold composeWrites
    exact List.mem_append_left _ (List.mem_append_right _ (List.mem_map_of_mem _ h))
  obtain ⟨pre, post, hsplit⟩ := chunkChars_of_mem _ _ hmem
  exact ⟨_, pre, post, runComposition_none c m, hsplit⟩

/-- C8 witness: the concrete entry ("K", "v"). -/
theorem header_line_form_witness :
    ∃ s pre post, runComposition exClientNoFrom hdrMsg none = Except.ok s ∧
      s.raw = pre ++ ("K" ++ " :  " ++ "v" ++ "\n").data ++ post :=
  header_line_form exClientNoFrom hdrMsg "K" "v" (by decide)

/-- C9: a failure of any composition write (headers, separator, body, or the
framing close) makes `resourceMessageCreate` return an error immediately:
`smtp.SendMail` is never attempted and no identity is produced. -/
theorem composition_failure_aborts (hash : List Char → List Nat) (now : Nat)
    (sendOk : Bool) (c : Client) (m : Message) (i : Nat)
    (h : i < (composeWrites c m).length + 1) :
    (resourceMessageCreate hash now (some i) sendOk c m).sendAttempted = none ∧
    ∃ e, (resourceMessageCreate hash now (some i) sendOk c m).result = CreateResult.error e := by
  by_cases hi : i < (composeWrites c m).length
  · obtain ⟨e, he⟩ := runWrites_fail i (composeWrites c m) initWriter
      (by simp [initWriter]) (by simp [initWriter, hi])
    refine ⟨?_, e, ?_⟩ <;> simp [resourceMessageCreate, runComposition, he]
  · have hieq : i = (composeWrites c m).length := by omega
    obtain ⟨s1, hs1, hc⟩ := runWrites_skip i (composeWrites c m) initWriter
      (by simp [initWriter]; omega)
    have hcnt : s1.count = i := by simp [initWriter] at hc; omega
    have hclose : closeStep (some i) s1 =
        Except.error "failed to close the message writer" := by
      simp [closeStep, hcnt]
    refine ⟨?_, "failed to close the message writer", ?_⟩ <;>
      simp [resourceMessageCreate, runComposition, hs1, hclose]

/-- C9 witness: failing the very first write of a concrete message. -/
theorem composition_failure_aborts_witness :
    (resourceMessageCreate (fun _ => []) 0 (some 0) true
      exClientNoFrom exMsgNoFrom).sendAttempted = none ∧
    ∃ e, (resourceMessageCreate (fun _ => []) 0 (some 0) true
      exClientNoFrom exMsgNoFrom).result = CreateResult.error e :=
  composition_failure_aborts (fun _ => []) 0 true exClientNoFrom exMsgNoFrom 0 (by decide)

end Smtp
